import Mathlib

/-!
Verification of the Persuade-Me challenge lifecycle implemented in
`src/actions/persuade_actions.py`.  The Python actions are shallowly embedded
as pure Lean functions: mutable agent state becomes explicit state passing,
dictionaries with optional keys become structures with `Option` fields,
exceptions become `Except`, and every outbound collaborator call (text
generation, token transfer, identity lookup, file save) is recorded as an
explicit event or driven by an environment value supplied per invocation.
JSON numbers are modelled as integers (scores in the code are 1..10),
timestamps are omitted, and the object-attribute duck-typing branches of the
reply normalizer are modelled through the dictionary-shaped branch, which is
the shape the claims quantify over.
-/

namespace Persuade

/-- JSON values as produced by `json.loads` in the evaluator.  Numbers are
modelled as integers. -/
inductive Json where
  | null : Json
  | bool (b : Bool) : Json
  | num (n : Int) : Json
  | str (s : String) : Json
  | arr (xs : List Json) : Json
  | obj (fields : List (String × Json)) : Json

/-- Python truthiness of a JSON value (`if value:`). -/
def pyTruthy : Json → Bool
  | .null => false
  | .bool b => b
  | .num n => n != 0
  | .str s => s != ""
  | .arr xs => !xs.isEmpty
  | .obj fs => !fs.isEmpty

/-- Substring test used for the Python expression `key in someString`
(`needle` is always one of the nonempty literals score/reasoning/passed). -/
def containsSub (needle hay : String) : Bool :=
  (hay.splitOn needle).length ≥ 2

/-- Key presence on an association list of object fields. -/
def hasKey (fs : List (String × Json)) (k : String) : Bool :=
  fs.any (fun p => p.1 == k)

/-- `d.get(k, dflt)` on object fields: value of the first binding of `k`,
else the default. -/
def objGetD (fs : List (String × Json)) (k : String) (dflt : Json) : Json :=
  match fs.find? (fun p => p.1 == k) with
  | some p => p.2
  | none => dflt

/-- Python `k in v`.  Membership is defined on dicts (key presence), strings
(substring) and lists (element equality against the string key); on other
values `in` raises `TypeError`, modelled as `Except.error`. -/
def pyContains (v : Json) (k : String) : Except String Bool :=
  match v with
  | .obj fs => .ok (hasKey fs k)
  | .str s => .ok (containsSub k s)
  | .arr xs => .ok (xs.any (fun j => match j with | .str t => t == k | _ => false))
  | _ => .error "TypeError"

/-- Python `v[k] = x`.  Item assignment only exists on dicts; on any other
value it raises `TypeError`.  A present key is overwritten in place, an
absent key is appended (dict insertion order). -/
def pySetItem (v : Json) (k : String) (x : Json) : Except String Json :=
  match v with
  | .obj fs =>
      if hasKey fs k then
        .ok (.obj (fs.map (fun p => if p.1 == k then (k, x) else p)))
      else
        .ok (.obj (fs ++ [(k, x)]))
  | _ => .error "TypeError"

/-- Python `v >= t` where `t` is an integer threshold.  Defined for numbers
and booleans (booleans are integers in Python); any other operand raises
`TypeError`. -/
def pyGeThreshold (v : Json) (t : Int) : Except String Bool :=
  match v with
  | .num n => .ok (decide (t ≤ n))
  | .bool b => .ok (decide (t ≤ (if b then (1 : Int) else 0)))
  | _ => .error "TypeError"

/-- Python `v.get(k, dflt)`.  The `get` method exists only on dicts; on any
other value attribute access raises `AttributeError`. -/
def pyDictGetD (v : Json) (k : String) (dflt : Json) : Except String Json :=
  match v with
  | .obj fs => .ok (objGetD fs k dflt)
  | _ => .error "AttributeError"

/-- The default evaluation synthesized when JSON decoding of the provider
response raises `JSONDecodeError` (persuade_actions.py lines 228-232). -/
def defaultEvalJson : Json :=
  .obj [("score", .num 5),
        ("reasoning", .str "Failed to parse evaluation, assigning default score"),
        ("passed", .bool false)]

/-- The field backfill of persuade_actions.py lines 235-245: `score`,
`reasoning` and `passed` are each added when absent, `passed` being computed
from `evaluation.get('score', 0) >= threshold`.  Errors model the Python
`TypeError` raised when the decoded value is not a dict. -/
def ensureFields (threshold : Int) (ev : Json) : Except String Json := do
  let hasScore ← pyContains ev "score"
  let ev1 ← if hasScore then pure ev else pySetItem ev "score" (.num 5)
  let hasReasoning ← pyContains ev1 "reasoning"
  let ev2 ← if hasReasoning then pure ev1
            else pySetItem ev1 "reasoning" (.str "No reasoning provided")
  let hasPassed ← pyContains ev2 "passed"
  if hasPassed then pure ev2
  else do
    let sc ← pyDictGetD ev2 "score" (.num 0)
    let b ← pyGeThreshold sc threshold
    pySetItem ev2 "passed" (.bool b)

/-- Decoding pipeline of persuade_actions.py lines 213-245.  The input is the
outcome of the attempted `json.loads` (of the regex-matched brace substring,
or of the whole response when no braces are found): `Except.error` stands for
`JSONDecodeError`, in which case the default evaluation is synthesized and
then run through the same backfill checks (all fields present, a no-op). -/
def evalPipeline (threshold : Int) (decoded : Except Unit Json) : Except String Json :=
  match decoded with
  | .error _ => ensureFields threshold defaultEvalJson
  | .ok j => ensureFields threshold j

/-- Field-level closed form of the backfill of lines 235-245 on a decoded
JSON object: append the missing fields in order, computing `passed` from the
(possibly backfilled) score. -/
def backfillFields (t : Int) (fs : List (String × Json)) :
    Except String (List (String × Json)) :=
  let fs1 := if hasKey fs "score" then fs else fs ++ [("score", Json.num 5)]
  let fs2 := if hasKey fs "reasoning" then fs1
             else fs1 ++ [("reasoning", Json.str "No reasoning provided")]
  if hasKey fs "passed" then .ok fs2
  else
    match pyGeThreshold (objGetD fs2 "score" (Json.num 0)) t with
    | .error m => .error m
    | .ok b => .ok (fs2 ++ [("passed", Json.bool b)])

/-! ## Data model -/

/-- Configuration read from `persuasion_challenge_settings`. -/
structure Settings where
  topics : List String
  reward_amount : Int
  threshold : Int
  auto_stop : Bool

/-- Result of one call of the evaluate action: a decoded evaluation dict, or
the error string the action returns when a step fails. -/
inductive EvalResult where
  | ok (ev : Json) : EvalResult
  | err (msg : String) : EvalResult

/-- One entry of `challenge['responses']`.  Keys that are absent in some of
the dicts built by the code (`display_name`, `rewarded`, `reward_amount`,
`reward_tx`) are modelled with their absent-as-default reading, which is how
every `.get` access in the code treats them. -/
structure Response where
  username : String
  display_name : Option String
  user_address : Option String
  reply_hash : String
  reply_text : String
  evaluation : EvalResult
  rewarded : Bool
  reward_amount : Option Int
  reward_tx : Option String

/-- The `current_challenge` dict.  `completed` is read with
`.get('completed', False)` so an absent key is `false`; `winner` is read with
`.get('winner')` so an absent key is `none`.  Timestamps are omitted. -/
structure Challenge where
  topic : String
  reward_amount : Int
  cast_hash : Option String
  responses : List Response
  completed : Bool
  winner : Option String

/-- One element of the winner ledger file written by `_update_winner_file`. -/
structure LedgerEntry where
  username : String
  address : Option String
  topic : String
  score : Option Json
  reward_amount : Int
  reward_tx : String

/-- Agent-level state: the in-memory current challenge plus the winner
ledger file. -/
structure AgentState where
  challenge : Option Challenge
  ledger : List LedgerEntry

/-- Observable external effects of one action invocation, in order. -/
inductive Event where
  | llmCall : Event
  | evalCall (reply_hash : String) : Event
  | save : Event
  | markCompleted : Event
  | transfer (address : String) (amount : Int) : Event
  | ledgerAppend : Event

/-- Number of evaluator invocations for the reply id `h` in a trace. -/
def countEval (h : String) (evs : List Event) : Nat :=
  evs.countP (fun e => match e with | .evalCall g => g == h | _ => false)

/-- Number of token-transfer calls in a trace. -/
def countTransfers (evs : List Event) : Nat :=
  evs.countP (fun e => match e with | .transfer _ _ => true | _ => false)

/-- Number of state-store saves in a trace. -/
def countSaves (evs : List Event) : Nat :=
  evs.countP (fun e => match e with | .save => true | _ => false)

/-- Whether the trace contains the completion-marking step. -/
def hasMark (evs : List Event) : Bool :=
  evs.any (fun e => match e with | .markCompleted => true | _ => false)

/-- Whether some recorded response carries the reply id `h` (the dedup test
of persuade_actions.py lines 491-495). -/
def hasHash (ch : Challenge) (h : String) : Bool :=
  ch.responses.any (fun r => r.reply_hash == h)

/-- The data-model invariant of section 3 of the spec, first half: a set
winner implies a completed challenge. -/
def invC (ch : Challenge) : Bool :=
  ch.winner.isNone || ch.completed

/-- The same invariant lifted to agent state. -/
def invAg (st : AgentState) : Bool :=
  match st.challenge with
  | none => true
  | some ch => invC ch

/-! ## The evaluate action -/

/-- Keyword arguments of `evaluate_persuasion_reply`. -/
structure EvalArgs where
  reply_text : String
  username : String
  user_address : Option String
  reply_hash : String

/-- Environment for one text-generation call: the call raised, or it returned
text whose JSON decoding attempt gave `decoded`. -/
inductive LlmOutcome where
  | raised : LlmOutcome
  | returned (decoded : Except Unit Json) : LlmOutcome

/-- The response dict appended by `evaluate_persuasion_reply` (lines
248-260).  It has no `display_name` key. -/
def mkEntry1 (a : EvalArgs) (ev : Json) : Response :=
  { username := a.username
    display_name := none
    user_address := a.user_address
    reply_hash := a.reply_hash
    reply_text := a.reply_text
    evaluation := .ok ev
    rewarded := false
    reward_amount := none
    reward_tx := none }

/-- Core of `evaluate_persuasion_reply` (lines 140-277), on a present
challenge.  Parameter-presence is Python truthiness of the three required
kwargs; the configuration-missing guards are outside this model (settings
are a parameter).  Any exception escaping the inner try (pipeline
`TypeError`, `.get` `AttributeError`) is caught at line 271 and returned as
an error string; note that the `AttributeError` at line 264 fires after the
response has been appended and saved. -/
def evaluateCore (s : Settings) (a : EvalArgs) (llm : LlmOutcome) (ch : Challenge) :
    Challenge × List Event × EvalResult :=
  if a.reply_text == "" || a.username == "" || a.reply_hash == "" then
    (ch, [], .err "Error: Missing required parameters")
  else
    match llm with
    | .raised => (ch, [Event.llmCall], .err "Error calling LLM")
    | .returned decoded =>
      match evalPipeline s.threshold decoded with
      | .error m => (ch, [Event.llmCall], .err ("Error calling LLM: " ++ m))
      | .ok ev =>
        let ch1 : Challenge := { ch with responses := ch.responses ++ [mkEntry1 a ev] }
        match pyDictGetD ev "passed" (Json.bool false) with
        | .error m => (ch1, [Event.llmCall, Event.save], .err ("Error calling LLM: " ++ m))
        | .ok pv =>
          if pyTruthy pv && s.auto_stop then
            ({ ch1 with completed := true, winner := some a.username },
             [Event.llmCall, Event.save, Event.markCompleted, Event.save], .ok ev)
          else
            (ch1, [Event.llmCall, Event.save], .ok ev)

/-- Top-level `evaluate_persuasion_reply`: with no current challenge the
action returns an error and does nothing. -/
def evaluateAction (s : Settings) (a : EvalArgs) (llm : LlmOutcome) (st : AgentState) :
    AgentState × List Event × EvalResult :=
  match st.challenge with
  | none => (st, [], .err "Error: No active challenge found")
  | some ch =>
    let r := evaluateCore s a llm ch
    ({ st with challenge := some r.1 }, r.2.1, r.2.2)

/-! ## Reply normalization (dict-shaped payloads, lines 477-559) -/

/-- The `author` sub-dict of a raw reply; every key may be absent. -/
structure Author where
  username : Option String
  displayName : Option String
  fname : Option String
  fid : Option Nat

/-- A raw reply payload in its dict shape: `hash`, top-level `text`, nested
`content.text`, and an optional `author` dict.  A present key with an empty
string models a present-but-falsy Python value. -/
structure RawReply where
  hash : Option String
  text : Option String
  content_text : Option String
  author : Option Author

/-- Text extraction, lines 506-510: top-level `text` when the key is
present, else `content['text']`. -/
def extractText (r : RawReply) : Option String :=
  match r.text with
  | some t => some t
  | none => r.content_text

/-- Author identity chain, lines 519-527: `username`, else `displayName`,
else `fname`, else a synthesized `user_<fid>`.  Each step tests key
presence. -/
def authorUsername (a : Author) : Option String :=
  match a.username with
  | some u => some u
  | none =>
    match a.displayName with
    | some d => some d
    | none =>
      match a.fname with
      | some f => some f
      | none => a.fid.map (fun n => "user_" ++ toString n)

/-- The repair at line 550: when the username so far is falsy (absent or
empty) and the author dict carries a `fid`, synthesize `user_<fid>`. -/
def fixUsername (r : RawReply) (u : Option String) : Option String :=
  if (match u with | none => true | some s => s == "") then
    match r.author with
    | some a =>
      match a.fid with
      | some n => some ("user_" ++ toString n)
      | none => u
    | none => u
  else u

/-- Full username extraction for a dict-shaped reply. -/
def extractUser (r : RawReply) : Option String :=
  fixUsername r (r.author.bind authorUsername)

/-- Display name extraction, line 515. -/
def extractDisplay (r : RawReply) : Option String :=
  r.author.bind (fun a => a.displayName)

/-- `display_name if display_name else username` (line 595 and others):
Python truthiness, so an absent or empty display name falls back to the
username. -/
def dispOr (d : Option String) (u : String) : String :=
  match d with
  | some s => if s == "" then u else s
  | none => u

/-! ## Wallet address resolution (`_get_user_wallet_address`, lines 774-861) -/

/-- One user record from the identity-lookup response body (`users[i]`).
`eth_addresses` collapses the presence checks on
`verified_addresses.eth_addresses` (absent maps to the empty list);
`custody_address` is the optional custody field. -/
structure UserRecord where
  eth_addresses : List String
  custody_address : Option String

/-- Outcome of the identity-lookup HTTP call: the request raised, returned a
non-200 status, or returned 200 with a `users` array (an absent `users` key
maps to the empty list). -/
inductive ApiOutcome where
  | raised : ApiOutcome
  | status (code : Nat) : ApiOutcome
  | ok (users : List UserRecord) : ApiOutcome

/-- Environment for one address resolution. -/
structure LookupEnv where
  api : ApiOutcome

/-- The fixed fallback test address (lines 801 and 861). -/
def fallbackAddress : String := "0xe28D37E094AC43Fc264bAb5263b3694b985B39df"

/-- FID extraction from a `user_<fid>` username (lines 790-795): the string
must be truthy, start with `user_`, and have a nonempty all-digit tail
(`username[5:].isdigit()` is false on the empty string).  The startswith
test and the `[5:]` slice are expressed by matching the five leading
characters. -/
def fidOfUsername (u : String) : Option String :=
  match u.data with
  | 'u' :: 's' :: 'e' :: 'r' :: '_' :: rest =>
    if !rest.isEmpty && rest.all Char.isDigit then some (String.mk rest)
    else none
  | _ => none

/-- `_get_user_wallet_address`: without an extractable FID, or on any lookup
failure, the fallback address is returned; with a user record, the first
verified eth address wins, else a truthy custody address, else the
fallback. -/
def getUserWalletAddress (env : LookupEnv) (username : String) : String :=
  match fidOfUsername username with
  | none => fallbackAddress
  | some _ =>
    match env.api with
    | .raised => fallbackAddress
    | .status _ => fallbackAddress
    | .ok users =>
      match users with
      | [] => fallbackAddress
      | u :: _ =>
        match u.eth_addresses with
        | a :: _ => a
        | [] =>
          match u.custody_address with
          | some c => if c == "" then fallbackAddress else c
          | none => fallbackAddress

/-- Non-degeneracy of a lookup environment: the first verified eth address
of the first user record, when one exists, is not the empty string.  (The
code returns that string verbatim; every other return path is already a
nonempty literal.) -/
def envOk : ApiOutcome → Bool
  | .ok (u :: _) =>
    match u.eth_addresses with
    | a :: _ => a != ""
    | [] => true
  | _ => true

/-! ## The poll tick (`check_challenge_replies`, lines 401-704) -/

/-- One fetched reply together with the per-reply collaborator outcomes its
processing consumes: the text-generation outcome and the identity-lookup
environment. -/
structure TickItem where
  raw : RawReply
  llm : LlmOutcome
  lookup : LookupEnv

/-- Line 593: `isinstance(evaluation_result, dict) and
evaluation_result.get('passed', False)` — a dict result whose `passed` value
is truthy. -/
def passedTruthy (res : EvalResult) : Bool :=
  match res with
  | .ok (.obj fs) => pyTruthy (objGetD fs "passed" (.bool false))
  | _ => false

/-- Lines 561-599 for one surviving reply: resolve the address, call the
evaluate action (which itself appends and may complete), append a second
response dict carrying the display name, and mark completion when the
returned evaluation is a dict whose `passed` is truthy. -/
def processEval (s : Settings) (ch : Challenge) (it : TickItem)
    (h t u : String) : Challenge × List Event :=
  let addr := getUserWalletAddress it.lookup u
  let core := evaluateCore s ⟨t, u, some addr, h⟩ it.llm ch
  let ch1 := core.1
  let res := core.2.2
  let entry2 : Response :=
    { username := u
      display_name := extractDisplay it.raw
      user_address := some addr
      reply_hash := h
      reply_text := t
      evaluation := res
      rewarded := false
      reward_amount := none
      reward_tx := none }
  let ch2 : Challenge := { ch1 with responses := ch1.responses ++ [entry2] }
  if passedTruthy res then
    ({ ch2 with completed := true, winner := some (dispOr (extractDisplay it.raw) u) },
     Event.evalCall h :: core.2.1 ++ [Event.markCompleted, Event.save])
  else
    (ch2, Event.evalCall h :: core.2.1 ++ [Event.save])

/-- Lines 476-599 for one fetched reply: extract the hash (skip when absent
or falsy), skip when the id was already processed, extract text and
username (skip when either is missing or falsy), then evaluate. -/
def processOne (s : Settings) (ch : Challenge) (it : TickItem) :
    Challenge × List Event :=
  match it.raw.hash with
  | none => (ch, [])
  | some h =>
    if h == "" then (ch, [])
    else if hasHash ch h then (ch, [])
    else
      match extractText it.raw, extractUser it.raw with
      | some t, some u =>
        if t == "" || u == "" then (ch, [])
        else processEval s ch it h t u
      | some _, none => (ch, [])
      | none, _ => (ch, [])

/-- Sequential processing of one fetched batch (the `for reply in replies`
loop), threading the challenge through and concatenating events. -/
def runBatch (s : Settings) : Challenge → List TickItem → Challenge × List Event
  | ch, [] => (ch, [])
  | ch, it :: rest =>
    let r1 := processOne s ch it
    let r2 := runBatch s r1.1 rest
    (r2.1, r1.2 ++ r2.2)

/-- `check_challenge_replies` on a present challenge: a completed challenge
returns immediately (line 422), a challenge without a cast hash errors
(line 452, the on-disk reload fallback being out of the model), an empty
fetch reports no replies, and otherwise the batch is processed. -/
def checkTick (s : Settings) (items : List TickItem) (ch : Challenge) :
    Challenge × List Event × String :=
  if ch.completed then (ch, [], "Challenge already completed")
  else
    match ch.cast_hash with
    | none => (ch, [], "Error: No cast hash for current challenge")
    | some _ =>
      if items.isEmpty then (ch, [], "No replies found for this challenge yet")
      else
        let r := runBatch s ch items
        (r.1, r.2, "Processed replies")

/-- A sequence of poll ticks, each with its own fetched batch. -/
def runTicks (s : Settings) : Challenge → List (List TickItem) → Challenge × List Event
  | ch, [] => (ch, [])
  | ch, items :: rest =>
    let r1 := checkTick s items ch
    let r2 := runTicks s r1.1 rest
    (r2.1, r1.2.1 ++ r2.2)

/-! ## The reward action (`reward_successful_persuasion`, lines 279-399) -/

/-- Outcome of the token-transfer call: the call raised, or returned an
opaque receipt. -/
inductive TransferOutcome where
  | raised : TransferOutcome
  | returned (tx : String) : TransferOutcome

/-- Environment for one reward invocation. -/
structure RewardEnv where
  lookup : LookupEnv
  transfer : TransferOutcome

/-- Winner scan of lines 309-322, returning the index and value of the
chosen response.  With a username argument the username is compared first
and `passed` is only read on a match (Python `and` short-circuits); without
one, `response.get('evaluation', {}).get('passed', False)` is read on every
response until the first truthy one.  Reading `.get('passed')` on an
error-string evaluation raises, modelled as `Except.error`. -/
def findWinnerScan (uarg : Option String) : List Response → Except String (Option (Nat × Response))
  | [] => .ok none
  | r :: rs =>
    let cont : Except String (Option (Nat × Response)) :=
      (findWinnerScan uarg rs).map (fun o => o.map (fun p => (p.1 + 1, p.2)))
    match uarg with
    | some u =>
      if r.username == u then
        match r.evaluation with
        | .err _ => .error "AttributeError"
        | .ok j =>
          match pyDictGetD j "passed" (Json.bool false) with
          | .error m => .error m
          | .ok pv => if pyTruthy pv then .ok (some (0, r)) else cont
      else cont
    | none =>
      match r.evaluation with
      | .err _ => .error "AttributeError"
      | .ok j =>
        match pyDictGetD j "passed" (Json.bool false) with
        | .error m => .error m
        | .ok pv => if pyTruthy pv then .ok (some (0, r)) else cont

/-- `winner_data.get('evaluation', {}).get('score')` for the ledger entry;
only reached on responses whose evaluation is a dict. -/
def scoreOf (r : Response) : Option Json :=
  match r.evaluation with
  | .ok (.obj fs) => (fs.find? (fun p => p.1 == "score")).map (fun p => p.2)
  | _ => none

/-- `reward_successful_persuasion`: find the first passing response (the
`rewarded` flag is never consulted), re-resolve the wallet address from the
winner username, error when the address is falsy, invoke the transfer, and
on a returned receipt set the reward fields on that response, append a
winner-ledger entry, and save.  A raising transfer is caught by the outer
handler: the call was issued but no state changes.  The congratulatory
platform replies are not claim-relevant and are not recorded. -/
def rewardAction (s : Settings) (uarg : Option String) (env : RewardEnv)
    (st : AgentState) : AgentState × List Event × Except String String :=
  match st.challenge with
  | none => (st, [], .error "Error: No active challenge found")
  | some ch =>
    match findWinnerScan uarg ch.responses with
    | .error m => (st, [], .error ("Error: " ++ m))
    | .ok none => (st, [], .error "Error: No winning response found")
    | .ok (some (i, w)) =>
      let addr := getUserWalletAddress env.lookup w.username
      if addr == "" then
        (st, [], .error ("Error: No wallet address for " ++ w.username))
      else
        match env.transfer with
        | .raised =>
          (st, [Event.transfer addr s.reward_amount], .error "Error: transfer failed")
        | .returned tx =>
          let w' : Response :=
            { w with rewarded := true
                     reward_amount := some s.reward_amount
                     reward_tx := some tx }
          let ch' : Challenge := { ch with responses := ch.responses.set i w' }
          let entry : LedgerEntry :=
            { username := w.username
              address := w.user_address
              topic := ch.topic
              score := scoreOf w
              reward_amount := s.reward_amount
              reward_tx := tx }
          (⟨some ch', st.ledger ++ [entry]⟩,
           [Event.transfer addr s.reward_amount, Event.ledgerAppend, Event.save],
           .ok tx)

/-! ## The post action (`post_persuade_challenge`, lines 12-123) -/

/-- Outcome of the platform `post-cast` call at lines 53-58: the call
raised (caught by the outer handler at lines 121-123), or it returned a
result from which the extraction cascade of lines 64-111 recovers the cast
hash (`none` when no branch finds one). -/
inductive PostOutcome where
  | raised : PostOutcome
  | returned (hash : Option String) : PostOutcome

/-- Environment for one challenge-posting call: the index used by the random
topic choice and the platform post-cast outcome. -/
structure PostEnv where
  pick : Nat
  post : PostOutcome

/-- The fresh challenge dict built at lines 46-51 (plus the cast hash stored
afterwards when the platform call returned): no `completed` or `winner`
key, an empty response list.  The overwrite at line 46 happens before the
platform call, so when that call raises the fresh challenge is in place with
no cast hash — exactly this value. -/
def freshChallenge (s : Settings) (env : PostEnv) : Challenge :=
  { topic := (s.topics.getD (env.pick % s.topics.length) "")
    reward_amount := s.reward_amount
    cast_hash := match env.post with
                 | .raised => none
                 | .returned h => h
    responses := []
    completed := false
    winner := none }

/-- `post_persuade_challenge`: with a nonempty topic list the current
challenge is unconditionally overwritten with a fresh one — no check that an
uncompleted challenge already exists.  A raising platform call still leaves
the overwritten state in place (the overwrite at line 46 precedes the call)
and returns an error string via the handler at lines 121-123. -/
def postAction (s : Settings) (env : PostEnv) (st : AgentState) :
    AgentState × Except String Unit :=
  if s.topics.isEmpty then
    (st, .error "Error: No topics configured for challenges")
  else
    match env.post with
    | .raised => (⟨some (freshChallenge s env), st.ledger⟩,
        .error "Error: post-cast failed")
    | .returned _ => (⟨some (freshChallenge s env), st.ledger⟩, .ok ())

/-! ## Concrete fixtures used by the counterexamples and witnesses -/

/-- A concrete configuration: one topic, reward 2, threshold 7, auto-stop. -/
def s0 : Settings := ⟨["t"], 2, 7, true⟩

/-- A passing provider evaluation. -/
def evPass : Json :=
  .obj [("score", .num 9), ("reasoning", .str "good"), ("passed", .bool true)]

/-- A failing provider evaluation. -/
def evFail : Json :=
  .obj [("score", .num 3), ("reasoning", .str "weak"), ("passed", .bool false)]

/-- A lookup environment whose HTTP call raises (every resolution falls back). -/
def lookupRaise : LookupEnv := ⟨.raised⟩

/-- A reply from alice that will pass. -/
def itemA : TickItem :=
  ⟨⟨some "0xa", some "arg one", none, some ⟨some "alice", some "Alice", none, none⟩⟩,
   .returned (.ok evPass), lookupRaise⟩

/-- A reply from bob, arriving after alice in the same batch, that fails. -/
def itemB : TickItem :=
  ⟨⟨some "0xb", some "arg two", none, some ⟨some "bob", none, none, none⟩⟩,
   .returned (.ok evFail), lookupRaise⟩

/-- A fresh open challenge. -/
def ch0 : Challenge := ⟨"t", 2, some "0xroot", [], false, none⟩

/-- Agent state holding the open challenge. -/
def st0 : AgentState := ⟨some ch0, []⟩

/-- An older, still uncompleted challenge. -/
def chOld : Challenge := ⟨"old", 2, some "0xold", [], false, none⟩

/-- A posting environment: pick index 0, hash extracted. -/
def env0 : PostEnv := ⟨0, .returned (some "0xroot")⟩

/-- Evaluate-action arguments matching alice and the fallback address. -/
def argsA : EvalArgs := ⟨"arg one", "alice", some fallbackAddress, "0xa"⟩

/-- The winning response as recorded after a completed challenge. -/
def rWin : Response :=
  ⟨"alice", some "Alice", some fallbackAddress, "0xa", "arg one", .ok evPass,
   false, none, none⟩

/-- A completed challenge with its recorded winner. -/
def chWin : Challenge := ⟨"t", 2, some "0xroot", [rWin], true, some "Alice"⟩

/-- Agent state after completion, empty ledger. -/
def stWin : AgentState := ⟨some chWin, []⟩

/-- A reward environment whose transfer succeeds. -/
def envTransferOk : RewardEnv := ⟨lookupRaise, .returned "tx1"⟩

/-- A reward environment whose transfer raises. -/
def envTransferRaise : RewardEnv := ⟨lookupRaise, .raised⟩

/-- An open challenge that already recorded the reply with id 0xa. -/
def chA : Challenge := ⟨"t", 2, some "0xroot", [rWin], false, none⟩

/-- A lookup environment returning one user with one verified eth address. -/
def envApi0 : LookupEnv := ⟨.ok [⟨["0xabc"], none⟩]⟩

/-! ## Claim C1: reward disbursement is not guarded by the rewarded flag -/

/-- C1 (code bug): the reward action never reads the `rewarded` flag it
sets.  From a completed challenge whose single passing response starts
unrewarded, a first invocation issues one transfer, appends one ledger
entry, and marks the response rewarded; a second invocation on the resulting
state nevertheless issues a second transfer and appends a second ledger
entry.  The true half of the claim also holds: an invocation whose transfer
raises leaves the state (reward fields and ledger) unchanged. -/
theorem c1_reward_not_guarded :
    countTransfers (rewardAction s0 none envTransferOk stWin).2.1 = 1 ∧
    ((rewardAction s0 none envTransferOk stWin).1.challenge.map
        (fun ch => ch.responses.map (fun r => r.rewarded))) = some [true] ∧
    countTransfers
      (rewardAction s0 none envTransferOk
        (rewardAction s0 none envTransferOk stWin).1).2.1 = 1 ∧
    (rewardAction s0 none envTransferOk
        (rewardAction s0 none envTransferOk stWin).1).1.ledger.length = 2 ∧
    rewardAction s0 none envTransferRaise stWin =
      (stWin, [Event.transfer fallbackAddress 2], .error "Error: transfer failed") :=
  ⟨rfl, rfl, rfl, rfl, rfl⟩

/-! ## Claim C2: completion does not fire the reward -/

/-- C2 (counterexample): the poll tick that finds the first passing reply
marks the challenge completed and records the winner, but its event trace
contains no token-transfer call at all. -/
theorem c2_counterexample :
    (checkTick s0 [itemA] ch0).1.completed = true ∧
    (checkTick s0 [itemA] ch0).1.winner = some "Alice" ∧
    countTransfers (checkTick s0 [itemA] ch0).2.1 = 0 :=
  ⟨rfl, rfl, rfl⟩

/-! ## Claim C3: duplicate response entries -/

/-- C3 (counterexample): processing a single fresh reply on one poll tick
appends two response entries with the same reply id (one appended inside the
evaluate action, one by the poll loop), so the no-duplicate invariant fails. -/
theorem c3_counterexample :
    ((checkTick s0 [itemA] ch0).1.responses.map (fun r => r.reply_hash)) =
      ["0xa", "0xa"] ∧
    ¬ ((checkTick s0 [itemA] ch0).1.responses.map (fun r => r.reply_hash)).Nodup :=
  ⟨rfl, by decide⟩

/-! ## Claim C4: in-batch replies after the winner are still processed -/

/-- C4 (counterexample): in a batch where the first reply wins, the second
reply is still evaluated and appended after the completion marking — the
trace shows the evaluator call for the second reply id after the
completion events, and the final state holds four response entries. -/
theorem c4_counterexample :
    (checkTick s0 [itemA, itemB] ch0).2.1 =
      [Event.evalCall "0xa", Event.llmCall, Event.save, Event.markCompleted,
       Event.save, Event.markCompleted, Event.save, Event.evalCall "0xb",
       Event.llmCall, Event.save, Event.save] ∧
    (checkTick s0 [itemA, itemB] ch0).1.completed = true ∧
    countEval "0xb" (checkTick s0 [itemA, itemB] ch0).2.1 = 1 :=
  ⟨rfl, rfl, rfl⟩

/-- C4 (amended): once `completed` is set, a later poll tick is a pure
no-op — the state is returned unchanged, with no evaluator calls and no
events at all; within the same fetched batch, however, replies after the
winning one are still evaluated (concrete conjunct). -/
theorem c4_amended (s : Settings) (items : List TickItem) (ch : Challenge)
    (hc : ch.completed = true) :
    checkTick s items ch = (ch, [], "Challenge already completed") ∧
    countEval "0xb" (checkTick s0 [itemA, itemB] ch0).2.1 = 1 := by
  refine ⟨?_, rfl⟩
  simp [checkTick, hc]

/-- C4 witness: the amended theorem applied to the completed fixture. -/
theorem c4_witness :
    checkTick s0 [itemA] chWin = (chWin, [], "Challenge already completed") ∧
    countEval "0xb" (checkTick s0 [itemA, itemB] ch0).2.1 = 1 :=
  c4_amended s0 [itemA] chWin rfl

/-! ## Claim C5: challenge creation never checks for an active challenge -/

/-- C5 (counterexample): with an uncompleted challenge in place, posting a
new challenge succeeds and replaces the current challenge instead of
returning an error and leaving state unchanged. -/
theorem c5_counterexample :
    chOld.completed = false ∧
    (postAction s0 env0 ⟨some chOld, []⟩).2 = .ok () ∧
    ((postAction s0 env0 ⟨some chOld, []⟩).1.challenge.map (fun ch => ch.topic)) =
      some "t" :=
  ⟨rfl, rfl, rfl⟩

/-- C5 (amended): whenever the topic list is nonempty, posting
unconditionally replaces the current challenge with a fresh one, whatever
challenge (completed or not) was present before — even when the platform
post call raises, in which case an error is returned but the state is
already overwritten; when the platform call returns, the action succeeds.
No branch errors because of an existing challenge. -/
theorem c5_amended (s : Settings) (env : PostEnv) (st : AgentState)
    (ht : s.topics.isEmpty = false) :
    (postAction s env st).1 = ⟨some (freshChallenge s env), st.ledger⟩ ∧
    (∀ h : Option String, env.post = .returned h →
      (postAction s env st).2 = .ok ()) := by
  cases hp : env.post with
  | raised =>
    refine ⟨?_, fun h hc => by cases hc⟩
    simp [postAction, ht, hp]
  | returned h =>
    refine ⟨?_, fun h2 _ => ?_⟩ <;> simp [postAction, ht, hp]

/-- C5 witness: the amended theorem applied to the fixture with an active
uncompleted challenge and a returning platform call. -/
theorem c5_witness :
    (postAction s0 env0 ⟨some chOld, []⟩).1 =
      ⟨some (freshChallenge s0 env0), []⟩ ∧
    (postAction s0 env0 ⟨some chOld, []⟩).2 = .ok () :=
  ⟨(c5_amended s0 env0 ⟨some chOld, []⟩ rfl).1,
   (c5_amended s0 env0 ⟨some chOld, []⟩ rfl).2 (some "0xroot") rfl⟩

/-! ## Helper lemmas on object fields -/

theorem hasKey_append (fs gs : List (String × Json)) (q : String) :
    hasKey (fs ++ gs) q = (hasKey fs q || hasKey gs q) := by
  simp [hasKey, List.any_append]

theorem hasKey_singleton (k : String) (x : Json) (q : String) :
    hasKey [(k, x)] q = (k == q) := by
  simp [hasKey]

theorem objGetD_append (fs gs : List (String × Json)) (q : String) (d : Json) :
    objGetD (fs ++ gs) q d =
      if hasKey fs q then objGetD fs q d else objGetD gs q d := by
  induction fs with
  | nil => simp [hasKey, objGetD]
  | cons p fs ih =>
    by_cases hq : p.1 == q
    · simp [hasKey, objGetD, List.find?, hq]
    · simp only [List.cons_append]
      simp only [hasKey, objGetD, List.any_cons, List.find?, hq] at *
      simpa [hq] using ih

theorem objGetD_singleton_self (k : String) (x : Json) (d : Json) :
    objGetD [(k, x)] k d = x := by
  simp [objGetD, List.find?]

theorem exbind_ok {ε α β : Type} (a : α) (f : α → Except ε β) :
    (Except.ok a >>= f : Except ε β) = f a := rfl

theorem exbind_err {ε α β : Type} (e : ε) (f : α → Except ε β) :
    (Except.error e >>= f : Except ε β) = Except.error e := rfl

theorem expure_ok {ε α : Type} (a : α) : (pure a : Except ε α) = Except.ok a := rfl

theorem bind_map_match (x : Except String Bool)
    (F : Bool → List (String × Json)) :
    (x >>= fun b => (Except.ok (Json.obj (F b)) : Except String Json)) =
      (match x with
       | .error m => (.error m : Except String (List (String × Json)))
       | .ok b => .ok (F b)).map Json.obj := by
  cases x <;> rfl

/-- On a decoded JSON object the backfill agrees with its field-level closed
form. -/
theorem ensureFields_obj (t : Int) (fs : List (String × Json)) :
    ensureFields t (.obj fs) = (backfillFields t fs).map Json.obj := by
  have e1 : ("score" == "reasoning") = false := rfl
  have e2 : ("score" == "passed") = false := rfl
  have e3 : ("reasoning" == "passed") = false := rfl
  by_cases h1 : hasKey fs "score" <;> by_cases h2 : hasKey fs "reasoning" <;>
    by_cases h3 : hasKey fs "passed" <;>
      simp only [ensureFields, backfillFields, pyContains, pySetItem,
        pyDictGetD, exbind_ok, exbind_err, expure_ok, h1, h2, h3, if_true,
        if_false, ite_true, ite_false, hasKey_append, hasKey_singleton,
        e1, e2, e3, Bool.or_false, Bool.false_or, Bool.false_eq_true,
        if_false, reduceIte] <;>
      first
        | rfl
        | rw [bind_map_match]

/-- What a successful backfill guarantees about the resulting fields. -/
theorem backfillFields_spec (t : Int) (fs gs : List (String × Json))
    (h : backfillFields t fs = .ok gs) :
    hasKey gs "score" = true ∧ hasKey gs "reasoning" = true ∧
    hasKey gs "passed" = true ∧
    (hasKey fs "passed" = false →
      ∃ b, objGetD gs "passed" Json.null = .bool b ∧
        pyGeThreshold (objGetD gs "score" (Json.num 0)) t = .ok b) := by
  have e1 : ("score" == "reasoning") = false := rfl
  have e2 : ("score" == "passed") = false := rfl
  have e3 : ("reasoning" == "passed") = false := rfl
  simp only [backfillFields] at h
  set fs1 := if hasKey fs "score" then fs else fs ++ [("score", Json.num 5)]
    with hfs1
  set fs2 := if hasKey fs "reasoning" then fs1
             else fs1 ++ [("reasoning", Json.str "No reasoning provided")]
    with hfs2
  have k1 : hasKey fs1 "score" = true := by
    rw [hfs1]
    by_cases h1 : hasKey fs "score" <;> simp [h1, hasKey_append, hasKey_singleton]
  have kr : hasKey fs1 "reasoning" = hasKey fs "reasoning" := by
    rw [hfs1]
    by_cases h1 : hasKey fs "score" <;>
      simp [h1, hasKey_append, hasKey_singleton, e1]
  have kp1 : hasKey fs1 "passed" = hasKey fs "passed" := by
    rw [hfs1]
    by_cases h1 : hasKey fs "score" <;>
      simp [h1, hasKey_append, hasKey_singleton, e2]
  have k1b : hasKey fs2 "score" = true := by
    rw [hfs2]
    by_cases h2 : hasKey fs "reasoning" <;> simp [h2, hasKey_append, k1]
  have k2 : hasKey fs2 "reasoning" = true := by
    rw [hfs2]
    by_cases h2 : hasKey fs "reasoning" <;>
      simp [h2, hasKey_append, hasKey_singleton, kr]
  have kp : hasKey fs2 "passed" = hasKey fs "passed" := by
    rw [hfs2]
    by_cases h2 : hasKey fs "reasoning" <;>
      simp [h2, hasKey_append, hasKey_singleton, e3, kp1]
  by_cases h3 : hasKey fs "passed"
  · rw [if_pos h3] at h
    injection h with h
    subst h
    refine ⟨k1b, k2, by rw [kp, h3], fun hf => ?_⟩
    rw [h3] at hf
    cases hf
  · rw [if_neg h3] at h
    have h3f : hasKey fs "passed" = false := by
      simpa using h3
    cases hge : pyGeThreshold (objGetD fs2 "score" (Json.num 0)) t with
    | error m => rw [hge] at h; cases h
    | ok b =>
      rw [hge] at h
      injection h with h
      subst h
      refine ⟨?_, ?_, ?_, fun _ => ⟨b, ?_, ?_⟩⟩
      · simp [hasKey_append, k1b]
      · simp [hasKey_append, k2]
      · simp [hasKey_append, hasKey_singleton]
      · rw [objGetD_append, kp, h3f]
        simp [objGetD_singleton_self]
      · rw [objGetD_append, if_pos k1b, hge]

/-! ## Claim C7: evaluation parse and backfill -/

/-- C7 (counterexample): a provider response that is valid JSON but not a
JSON object — here the bare number 7, no brace substring to match — is not
turned into the default evaluation: the backfill raises `TypeError` and the
evaluate action returns an error string instead of an Evaluation. -/
theorem c7_counterexample :
    evalPipeline 7 (.ok (.num 7)) = .error "TypeError" ∧
    (evaluateCore s0 argsA (.returned (.ok (.num 7))) ch0).2.2 =
      .err "Error calling LLM: TypeError" ∧
    (evaluateCore s0 argsA (.returned (.ok (.num 7))) ch0).1 = ch0 :=
  ⟨rfl, rfl, rfl⟩

/-- C7 (amended): when JSON decoding raises, the evaluator synthesizes the
default evaluation (score 5, passed false) instead of raising; when decoding
yields a JSON object and the backfill returns, the result is an object
carrying all three fields, and whenever `passed` was absent from the
provider output its backfilled value equals the comparison of the (possibly
backfilled) score against the threshold.  (Decoded non-object JSON instead
makes the backfill raise, per the counterexample.) -/
theorem c7_amended :
    (∀ t : Int, evalPipeline t (.error ()) = .ok defaultEvalJson) ∧
    (∀ (t : Int) (fs : List (String × Json)) (r : Json),
      evalPipeline t (.ok (.obj fs)) = .ok r →
      ∃ gs, r = .obj gs ∧ hasKey gs "score" = true ∧
        hasKey gs "reasoning" = true ∧ hasKey gs "passed" = true ∧
        (hasKey fs "passed" = false →
          ∃ b, objGetD gs "passed" Json.null = .bool b ∧
            pyGeThreshold (objGetD gs "score" (Json.num 0)) t = .ok b)) := by
  constructor
  · intro t
    rfl
  · intro t fs r h
    have hp : evalPipeline t (.ok (.obj fs)) = ensureFields t (.obj fs) := rfl
    rw [hp, ensureFields_obj] at h
    cases hbf : backfillFields t fs with
    | error m => rw [hbf] at h; cases h
    | ok gs =>
      rw [hbf] at h
      injection h with h
      exact ⟨gs, h.symm, backfillFields_spec t fs gs hbf⟩

/-- C7 witness: the amended theorem applied at the default-synthesis input
and at a concrete object missing `reasoning` and `passed` with threshold 7
and score 8. -/
theorem c7_witness :
    evalPipeline 7 (.error ()) = .ok defaultEvalJson ∧
    ∃ gs, (Json.obj [("score", Json.num 8),
        ("reasoning", Json.str "No reasoning provided"),
        ("passed", Json.bool true)]) = .obj gs ∧
      hasKey gs "score" = true ∧ hasKey gs "reasoning" = true ∧
      hasKey gs "passed" = true ∧
      (hasKey [("score", Json.num 8)] "passed" = false →
        ∃ b, objGetD gs "passed" Json.null = .bool b ∧
          pyGeThreshold (objGetD gs "score" (Json.num 0)) 7 = .ok b) :=
  ⟨c7_amended.1 7, c7_amended.2 7 [("score", Json.num 8)] _ rfl⟩

/-! ## Behavior of the evaluate action -/

theorem evaluateCore_completed (s : Settings) (a : EvalArgs) (llm : LlmOutcome)
    (ch : Challenge) :
    (evaluateCore s a llm ch).1.completed =
      (ch.completed || hasMark (evaluateCore s a llm ch).2.1) := by
  unfold evaluateCore
  repeat' split
  all_goals simp [hasMark]

theorem evaluateCore_responses (s : Settings) (a : EvalArgs) (llm : LlmOutcome)
    (ch : Challenge) :
    ∃ tl, (evaluateCore s a llm ch).1.responses = ch.responses ++ tl := by
  unfold evaluateCore
  repeat' split
  all_goals first
    | exact ⟨[], (List.append_nil _).symm⟩
    | exact ⟨[mkEntry1 a _], rfl⟩

theorem evaluateCore_countEval (s : Settings) (a : EvalArgs) (llm : LlmOutcome)
    (ch : Challenge) (h : String) :
    countEval h (evaluateCore s a llm ch).2.1 = 0 := by
  unfold evaluateCore
  repeat' split
  all_goals simp [countEval]

theorem evaluateCore_countTransfers (s : Settings) (a : EvalArgs)
    (llm : LlmOutcome) (ch : Challenge) :
    countTransfers (evaluateCore s a llm ch).2.1 = 0 := by
  unfold evaluateCore
  repeat' split
  all_goals simp [countTransfers]

theorem evaluateCore_winnerInv (s : Settings) (a : EvalArgs) (llm : LlmOutcome)
    (ch : Challenge) (h : (ch.winner.isNone || ch.completed) = true) :
    ((evaluateCore s a llm ch).1.winner.isNone ||
      (evaluateCore s a llm ch).1.completed) = true := by
  unfold evaluateCore
  repeat' split
  all_goals simp_all

theorem pyDictGetD_ok_obj (v : Json) (k : String) (d x : Json)
    (h : pyDictGetD v k d = .ok x) : ∃ fs, v = .obj fs := by
  cases v <;> first | exact ⟨_, rfl⟩ | cases h

/-- A successful evaluate action returned a JSON object, appended exactly the
corresponding response entry, and saved at least once. -/
theorem evaluateCore_ok_spec (s : Settings) (a : EvalArgs) (llm : LlmOutcome)
    (ch : Challenge) (j : Json) (h : (evaluateCore s a llm ch).2.2 = .ok j) :
    (∃ fs, j = .obj fs) ∧
    (evaluateCore s a llm ch).1.responses = ch.responses ++ [mkEntry1 a j] ∧
    1 ≤ countSaves (evaluateCore s a llm ch).2.1 := by
  revert h
  unfold evaluateCore
  repeat' split
  all_goals intro h
  all_goals first
    | (cases h; done)
    | (injection h with h
       subst h
       exact ⟨pyDictGetD_ok_obj _ _ _ _ (by assumption), by rfl,
         by simp [countSaves]⟩)

/-! ## Behavior of one processed reply -/

theorem hasMark_append (l1 l2 : List Event) :
    hasMark (l1 ++ l2) = (hasMark l1 || hasMark l2) := by
  simp [hasMark, List.any_append]

theorem hasHash_mono_append (ch ch' : Challenge) (tl : List Response)
    (he : ch'.responses = ch.responses ++ tl) (q : String)
    (hh : hasHash ch q = true) : hasHash ch' q = true := by
  simp only [hasHash] at *
  rw [he, List.any_append, hh, Bool.true_or]

theorem processEval_hasHash (s : Settings) (ch : Challenge) (it : TickItem)
    (h t u : String) :
    hasHash (processEval s ch it h t u).1 h = true := by
  simp only [processEval]
  repeat' split
  all_goals simp [hasHash, List.any_append]

theorem processEval_hash_mono (s : Settings) (ch : Challenge) (it : TickItem)
    (h t u q : String) (hh : hasHash ch q = true) :
    hasHash (processEval s ch it h t u).1 q = true := by
  have hc : hasHash
      (evaluateCore s ⟨t, u, some (getUserWalletAddress it.lookup u), h⟩
        it.llm ch).1 q = true := by
    obtain ⟨tl, htl⟩ := evaluateCore_responses s
      ⟨t, u, some (getUserWalletAddress it.lookup u), h⟩ it.llm ch
    exact hasHash_mono_append _ _ tl htl q hh
  simp only [hasHash] at hc
  simp only [processEval]
  repeat' split
  all_goals simp [hasHash, List.any_append, hc]

theorem processEval_countEval (s : Settings) (ch : Challenge) (it : TickItem)
    (h t u q : String) :
    countEval q (processEval s ch it h t u).2 =
      (if (h == q) = true then 1 else 0) := by
  have hc := evaluateCore_countEval s
    ⟨t, u, some (getUserWalletAddress it.lookup u), h⟩ it.llm ch q
  simp only [countEval] at hc
  simp only [processEval]
  split <;> simp [countEval, List.countP_cons, List.countP_append, hc]

theorem processEval_transfers (s : Settings) (ch : Challenge) (it : TickItem)
    (h t u : String) :
    countTransfers (processEval s ch it h t u).2 = 0 := by
  have hc := evaluateCore_countTransfers s
    ⟨t, u, some (getUserWalletAddress it.lookup u), h⟩ it.llm ch
  simp only [processEval]
  repeat' split
  all_goals simp only [countTransfers, List.countP_cons, List.countP_append] at hc ⊢
  all_goals simp [hc]

theorem processEval_completed (s : Settings) (ch : Challenge) (it : TickItem)
    (h t u : String) :
    (processEval s ch it h t u).1.completed =
      (ch.completed || hasMark (processEval s ch it h t u).2) := by
  have hc := evaluateCore_completed s
    ⟨t, u, some (getUserWalletAddress it.lookup u), h⟩ it.llm ch
  simp only [processEval]
  repeat' split
  all_goals simp [hasMark, List.any_append, hasMark_append] at hc ⊢
  all_goals simp [hc, Bool.or_assoc]

theorem processEval_inv (s : Settings) (ch : Challenge) (it : TickItem)
    (h t u : String) (hi : invC ch = true) :
    invC (processEval s ch it h t u).1 = true := by
  have hc := evaluateCore_winnerInv s
    ⟨t, u, some (getUserWalletAddress it.lookup u), h⟩ it.llm ch
    (by simpa [invC] using hi)
  simp only [processEval]
  repeat' split
  all_goals simp [invC] at hc ⊢
  all_goals simp [hc]

theorem processOne_hash_mono (s : Settings) (ch : Challenge) (it : TickItem)
    (q : String) (hh : hasHash ch q = true) :
    hasHash (processOne s ch it).1 q = true := by
  unfold processOne
  repeat' split
  all_goals first
    | exact hh
    | exact processEval_hash_mono s ch it _ _ _ q hh

theorem processOne_countEval_le (s : Settings) (ch : Challenge) (it : TickItem)
    (q : String) :
    countEval q (processOne s ch it).2 ≤ 1 := by
  unfold processOne
  repeat' split
  all_goals first
    | (simp [countEval]; done)
    | (rw [processEval_countEval]; split <;> simp)

theorem processOne_countEval_mem (s : Settings) (ch : Challenge) (it : TickItem)
    (q : String) (hh : hasHash ch q = true) :
    countEval q (processOne s ch it).2 = 0 := by
  unfold processOne
  repeat' split
  all_goals first
    | (simp [countEval]; done)
    | (rw [processEval_countEval]
       split
       · rename_i hbeq
         have heq2 := eq_of_beq hbeq
         subst heq2
         simp_all
       · rfl)

theorem processOne_countEval_pos (s : Settings) (ch : Challenge) (it : TickItem)
    (q : String) (hp : 1 ≤ countEval q (processOne s ch it).2) :
    hasHash (processOne s ch it).1 q = true := by
  revert hp
  unfold processOne
  repeat' split
  all_goals intro hp
  all_goals first
    | (simp [countEval] at hp; done)
    | (rw [processEval_countEval] at hp
       split at hp
       · rename_i hbeq
         have heq2 := eq_of_beq hbeq
         subst heq2
         exact processEval_hasHash s ch it _ _ _
       · simp at hp)

theorem processOne_transfers (s : Settings) (ch : Challenge) (it : TickItem) :
    countTransfers (processOne s ch it).2 = 0 := by
  unfold processOne
  repeat' split
  all_goals first
    | (simp [countTransfers]; done)
    | exact processEval_transfers s ch it _ _ _

theorem processOne_completed (s : Settings) (ch : Challenge) (it : TickItem) :
    (processOne s ch it).1.completed =
      (ch.completed || hasMark (processOne s ch it).2) := by
  unfold processOne
  repeat' split
  all_goals first
    | (simp [hasMark]; done)
    | exact processEval_completed s ch it _ _ _

theorem processOne_inv (s : Settings) (ch : Challenge) (it : TickItem)
    (hi : invC ch = true) : invC (processOne s ch it).1 = true := by
  unfold processOne
  repeat' split
  all_goals first
    | exact hi
    | exact processEval_inv s ch it _ _ _ hi

/-! ## Behavior of batches, ticks and tick sequences -/

theorem countEval_append (q : String) (l1 l2 : List Event) :
    countEval q (l1 ++ l2) = countEval q l1 + countEval q l2 := by
  simp [countEval, List.countP_append]

theorem countTransfers_append (l1 l2 : List Event) :
    countTransfers (l1 ++ l2) = countTransfers l1 + countTransfers l2 := by
  simp [countTransfers, List.countP_append]

theorem runBatch_spec (s : Settings) (q : String) (items : List TickItem) :
    ∀ ch : Challenge,
      (hasHash ch q = true → countEval q (runBatch s ch items).2 = 0) ∧
      countEval q (runBatch s ch items).2 ≤ 1 ∧
      (1 ≤ countEval q (runBatch s ch items).2 →
        hasHash (runBatch s ch items).1 q = true) ∧
      (hasHash ch q = true → hasHash (runBatch s ch items).1 q = true) := by
  induction items with
  | nil =>
    intro ch
    exact ⟨fun _ => rfl, by simp [runBatch, countEval],
      fun hp => by simp [runBatch, countEval] at hp, fun hh => hh⟩
  | cons it rest ih =>
    intro ch
    obtain ⟨ihA, ihB, ihC, ihD⟩ := ih (processOne s ch it).1
    have hb : runBatch s ch (it :: rest) =
        ((runBatch s (processOne s ch it).1 rest).1,
         (processOne s ch it).2 ++ (runBatch s (processOne s ch it).1 rest).2) := rfl
    rw [hb]
    simp only [countEval_append]
    have hle := processOne_countEval_le s ch it q
    refine ⟨?_, ?_, ?_, ?_⟩
    · intro hh
      rw [processOne_countEval_mem s ch it q hh,
        ihA (processOne_hash_mono s ch it q hh)]
    · rcases Nat.le_one_iff_eq_zero_or_eq_one.mp hle with h0 | h1
      · rw [h0]
        simpa using ihB
      · rw [h1, ihA (processOne_countEval_pos s ch it q (by rw [h1]))]
    · intro hp
      rcases Nat.eq_zero_or_pos (countEval q (processOne s ch it).2) with h0 | hpos
      · rw [h0] at hp
        exact ihC (by simpa using hp)
      · exact ihD (processOne_countEval_pos s ch it q hpos)
    · intro hh
      exact ihD (processOne_hash_mono s ch it q hh)

theorem runBatch_transfers (s : Settings) (items : List TickItem) :
    ∀ ch : Challenge, countTransfers (runBatch s ch items).2 = 0 := by
  induction items with
  | nil => intro ch; rfl
  | cons it rest ih =>
    intro ch
    have hb : runBatch s ch (it :: rest) =
        ((runBatch s (processOne s ch it).1 rest).1,
         (processOne s ch it).2 ++ (runBatch s (processOne s ch it).1 rest).2) := rfl
    rw [hb]
    simp [countTransfers_append, processOne_transfers, ih (processOne s ch it).1]

theorem runBatch_completed (s : Settings) (items : List TickItem) :
    ∀ ch : Challenge, (runBatch s ch items).1.completed =
      (ch.completed || hasMark (runBatch s ch items).2) := by
  induction items with
  | nil => intro ch; simp [runBatch, hasMark]
  | cons it rest ih =>
    intro ch
    have hb : runBatch s ch (it :: rest) =
        ((runBatch s (processOne s ch it).1 rest).1,
         (processOne s ch it).2 ++ (runBatch s (processOne s ch it).1 rest).2) := rfl
    rw [hb]
    simp [ih (processOne s ch it).1, processOne_completed, hasMark_append,
      Bool.or_assoc]

theorem runBatch_inv (s : Settings) (items : List TickItem) :
    ∀ ch : Challenge, invC ch = true → invC (runBatch s ch items).1 = true := by
  induction items with
  | nil => intro ch hi; exact hi
  | cons it rest ih =>
    intro ch hi
    exact ih (processOne s ch it).1 (processOne_inv s ch it hi)

theorem checkTick_spec (s : Settings) (items : List TickItem) (ch : Challenge)
    (q : String) :
    (hasHash ch q = true → countEval q (checkTick s items ch).2.1 = 0) ∧
    countEval q (checkTick s items ch).2.1 ≤ 1 ∧
    (1 ≤ countEval q (checkTick s items ch).2.1 →
      hasHash (checkTick s items ch).1 q = true) ∧
    (hasHash ch q = true → hasHash (checkTick s items ch).1 q = true) := by
  unfold checkTick
  repeat' split
  all_goals first
    | exact ⟨fun _ => rfl, by simp [countEval],
        fun hp => by simp [countEval] at hp, fun hh => hh⟩
    | exact runBatch_spec s q items ch

theorem checkTick_transfers (s : Settings) (items : List TickItem)
    (ch : Challenge) : countTransfers (checkTick s items ch).2.1 = 0 := by
  unfold checkTick
  repeat' split
  all_goals first
    | rfl
    | exact runBatch_transfers s items ch

theorem checkTick_completed (s : Settings) (items : List TickItem)
    (ch : Challenge) :
    (checkTick s items ch).1.completed =
      (ch.completed || hasMark (checkTick s items ch).2.1) := by
  unfold checkTick
  repeat' split
  all_goals first
    | (simp [hasMark]; done)
    | exact runBatch_completed s items ch

theorem checkTick_inv (s : Settings) (items : List TickItem) (ch : Challenge)
    (hi : invC ch = true) : invC (checkTick s items ch).1 = true := by
  revert hi
  unfold checkTick
  repeat' split
  all_goals intro hi
  all_goals first
    | exact hi
    | exact runBatch_inv s items ch hi

theorem runTicks_spec (s : Settings) (q : String)
    (ticks : List (List TickItem)) :
    ∀ ch : Challenge,
      (hasHash ch q = true → countEval q (runTicks s ch ticks).2 = 0) ∧
      countEval q (runTicks s ch ticks).2 ≤ 1 ∧
      (1 ≤ countEval q (runTicks s ch ticks).2 →
        hasHash (runTicks s ch ticks).1 q = true) ∧
      (hasHash ch q = true → hasHash (runTicks s ch ticks).1 q = true) := by
  induction ticks with
  | nil =>
    intro ch
    exact ⟨fun _ => rfl, by simp [runTicks, countEval],
      fun hp => by simp [runTicks, countEval] at hp, fun hh => hh⟩
  | cons items rest ih =>
    intro ch
    obtain ⟨tA, tB, tC, tD⟩ := checkTick_spec s items ch q
    obtain ⟨ihA, ihB, ihC, ihD⟩ := ih (checkTick s items ch).1
    have hb : runTicks s ch (items :: rest) =
        ((runTicks s (checkTick s items ch).1 rest).1,
         (checkTick s items ch).2.1 ++
           (runTicks s (checkTick s items ch).1 rest).2) := rfl
    rw [hb]
    simp only [countEval_append]
    refine ⟨?_, ?_, ?_, ?_⟩
    · intro hh
      rw [tA hh, ihA (tD hh)]
    · rcases Nat.le_one_iff_eq_zero_or_eq_one.mp tB with h0 | h1
      · rw [h0]
        simpa using ihB
      · rw [h1, ihA (tC (by rw [h1]))]
    · intro hp
      rcases Nat.eq_zero_or_pos (countEval q (checkTick s items ch).2.1)
        with h0 | hpos
      · rw [h0] at hp
        exact ihC (by simpa using hp)
      · exact ihD (tC hpos)
    · intro hh
      exact ihD (tD hh)

/-! ## Claims C2, C3, C6, C8 (amended and confirmed statements) -/

/-- C2 (amended): the poll tick never issues a token transfer, and it
transitions the challenge to completed exactly when the run marks completion
(which happens exactly when a processed reply evaluates as passed); reward
disbursement is a separate action that must be invoked on its own. -/
theorem c2_amended (s : Settings) (items : List TickItem) (ch : Challenge) :
    countTransfers (checkTick s items ch).2.1 = 0 ∧
    (checkTick s items ch).1.completed =
      (ch.completed || hasMark (checkTick s items ch).2.1) :=
  ⟨checkTick_transfers s items ch, checkTick_completed s items ch⟩

/-- C3 (amended): the invariant winner-set-implies-completed is preserved by
every operation (posting, evaluating, polling, rewarding); the no-duplicate
half fails: one processed reply yields two entries with the same reply id
(concrete final conjunct). -/
theorem c3_amended :
    (∀ (s : Settings) (env : PostEnv) (st : AgentState),
      invAg st = true → invAg (postAction s env st).1 = true) ∧
    (∀ (s : Settings) (a : EvalArgs) (llm : LlmOutcome) (st : AgentState),
      invAg st = true → invAg (evaluateAction s a llm st).1 = true) ∧
    (∀ (s : Settings) (items : List TickItem) (ch : Challenge),
      invC ch = true → invC (checkTick s items ch).1 = true) ∧
    (∀ (s : Settings) (uarg : Option String) (env : RewardEnv)
      (st : AgentState),
      invAg st = true → invAg (rewardAction s uarg env st).1 = true) ∧
    (checkTick s0 [itemA] ch0).1.responses.map (fun r => r.reply_hash) =
      ["0xa", "0xa"] := by
  refine ⟨?_, ?_, ?_, ?_, rfl⟩
  · intro s env st hi
    unfold postAction
    split
    · exact hi
    · split <;> simp [invAg, invC, freshChallenge]
  · intro s a llm st hi
    unfold evaluateAction
    cases hch : st.challenge with
    | none => simpa [hch] using hi
    | some ch =>
      have hi2 : (ch.winner.isNone || ch.completed) = true := by
        simpa [invAg, hch, invC] using hi
      have hw := evaluateCore_winnerInv s a llm ch hi2
      simpa [hch, invAg, invC] using hw
  · intro s items ch hi
    exact checkTick_inv s items ch hi
  · intro s uarg env st hi
    unfold rewardAction
    repeat' split
    all_goals first
      | exact hi
      | (simp_all [invAg, invC]; done)
      | (dsimp only; split <;> simp_all [invAg, invC])

/-- C3 witness: the amended theorem instantiated on the completed fixture
state for each operation. -/
theorem c3_witness :
    invAg (postAction s0 env0 stWin).1 = true ∧
    invAg (evaluateAction s0 argsA (.returned (.ok evPass)) stWin).1 = true ∧
    invC (checkTick s0 [itemA] chWin).1 = true ∧
    invAg (rewardAction s0 none envTransferOk stWin).1 = true :=
  ⟨c3_amended.1 s0 env0 stWin rfl,
   c3_amended.2.1 s0 argsA (.returned (.ok evPass)) stWin rfl,
   c3_amended.2.2.1 s0 [itemA] chWin rfl,
   c3_amended.2.2.2.1 s0 none envTransferOk stWin rfl⟩

/-- C6 (counterexample): one successful evaluate call on an open challenge
grows the responses list, saves to durable storage twice, and (the reply
passing) sets completed — the action does not leave the Challenge record and
storage unchanged. -/
theorem c6_counterexample :
    (evaluateCore s0 argsA (.returned (.ok evPass)) ch0).1.responses.length = 1 ∧
    countSaves (evaluateCore s0 argsA (.returned (.ok evPass)) ch0).2.1 = 2 ∧
    (evaluateCore s0 argsA (.returned (.ok evPass)) ch0).1.completed = true :=
  ⟨rfl, rfl, rfl⟩

/-- C6 (amended): the evaluate action is not pure — whenever it returns an
Evaluation it has appended the corresponding response entry to the
challenge and saved the challenge to durable storage at least once. -/
theorem c6_amended (s : Settings) (a : EvalArgs) (llm : LlmOutcome)
    (ch : Challenge) (j : Json)
    (h : (evaluateCore s a llm ch).2.2 = .ok j) :
    (evaluateCore s a llm ch).1.responses = ch.responses ++ [mkEntry1 a j] ∧
    1 ≤ countSaves (evaluateCore s a llm ch).2.1 :=
  ⟨(evaluateCore_ok_spec s a llm ch j h).2.1,
   (evaluateCore_ok_spec s a llm ch j h).2.2⟩

/-- C6 witness: the amended theorem at the passing fixture input. -/
theorem c6_witness :
    (evaluateCore s0 argsA (.returned (.ok evPass)) ch0).1.responses =
      ch0.responses ++ [mkEntry1 argsA evPass] ∧
    1 ≤ countSaves (evaluateCore s0 argsA (.returned (.ok evPass)) ch0).2.1 :=
  c6_amended s0 argsA (.returned (.ok evPass)) ch0 evPass rfl

/-- C8 (confirmed): over any sequence of poll ticks from any state, the
evaluator is invoked at most once per reply id, and a reply id already
recorded in the challenge responses is never evaluated again. -/
theorem c8_dedup (s : Settings) (ch : Challenge)
    (ticks : List (List TickItem)) (q : String) :
    countEval q (runTicks s ch ticks).2 ≤ 1 ∧
    (hasHash ch q = true → countEval q (runTicks s ch ticks).2 = 0) :=
  ⟨(runTicks_spec s q ticks ch).2.1, (runTicks_spec s q ticks ch).1⟩

/-- C8 witness: a tick sequence re-fetching the already-recorded reply 0xa
on an open challenge evaluates it zero times. -/
theorem c8_witness :
    countEval "0xa" (runTicks s0 chA [[itemA], [itemA]]).2 = 0 :=
  (c8_dedup s0 chA [[itemA], [itemA]] "0xa").2 rfl

/-! ## Claim C9: normalizer priority -/

theorem userTag_ne_empty (x : String) : ("user_" ++ x) ≠ "" := by
  intro h
  have hd := congrArg String.data h
  rw [String.data_append] at hd
  simp at hd

/-- C9 (confirmed): text extraction prefers the top-level `text` over
`content.text`; the author identity chain is username, then displayName,
then fname, then the synthesized `user_<fid>`, and a payload whose author
carries only a numeric id normalizes to username `user_<id>`. -/
theorem c9_normalizer :
    (∀ (r : RawReply) (t c : String), r.text = some t → r.content_text = some c →
      extractText r = some t) ∧
    (∀ (a : Author) (u : String), a.username = some u →
      authorUsername a = some u) ∧
    (∀ (a : Author) (d : String), a.username = none → a.displayName = some d →
      authorUsername a = some d) ∧
    (∀ (a : Author) (f : String), a.username = none → a.displayName = none →
      a.fname = some f → authorUsername a = some f) ∧
    (∀ n : Nat, authorUsername ⟨none, none, none, some n⟩ =
      some ("user_" ++ toString n)) ∧
    (∀ (hh tt cc : Option String) (n : Nat),
      extractUser ⟨hh, tt, cc, some ⟨none, none, none, some n⟩⟩ =
        some ("user_" ++ toString n)) := by
  refine ⟨?_, ?_, ?_, ?_, ?_, ?_⟩
  · intro r t c ht hc
    simp [extractText, ht]
  · intro a u hu
    simp [authorUsername, hu]
  · intro a d hu hd
    simp [authorUsername, hu, hd]
  · intro a f hu hd hf
    simp [authorUsername, hu, hd, hf]
  · intro n
    rfl
  · intro hh tt cc n
    simp [extractUser, fixUsername, authorUsername, Option.bind,
      beq_eq_false_iff_ne.mpr (userTag_ne_empty (toString n))]

/-- C9 witness: the priority theorem at a payload with both text fields and
at a payload whose author has only a numeric id. -/
theorem c9_witness :
    extractText ⟨some "0xh", some "top", some "nested", none⟩ = some "top" ∧
    extractUser ⟨some "0xh", some "top", none,
      some ⟨none, none, none, some 42⟩⟩ = some ("user_" ++ toString 42) :=
  ⟨c9_normalizer.1 ⟨some "0xh", some "top", some "nested", none⟩ "top"
      "nested" rfl rfl,
   c9_normalizer.2.2.2.2.2 (some "0xh") (some "top") none 42⟩

/-! ## Claim C10: fallback address resolution -/

theorem fallbackAddress_ne_empty : fallbackAddress ≠ "" := by decide

theorem getUserWalletAddress_ne_empty (env : LookupEnv) (u : String)
    (he : envOk env.api = true) : getUserWalletAddress env u ≠ "" := by
  unfold getUserWalletAddress
  repeat' split
  all_goals first
    | exact fallbackAddress_ne_empty
    | simp_all [envOk]

/-- C10 (confirmed): address resolution is total — with a non-degenerate
lookup collaborator it always returns a nonempty address, returning the
fixed fallback address whenever no FID can be extracted from the username;
consequently the no-wallet-address branch of the reward action is not taken
and a found winner always reaches the token-transfer call. -/
theorem c10_fallback (env : LookupEnv) (u : String)
    (he : envOk env.api = true) :
    getUserWalletAddress env u ≠ "" ∧
    (fidOfUsername u = none → getUserWalletAddress env u = fallbackAddress) ∧
    (∀ (s : Settings) (uarg : Option String) (tr : TransferOutcome)
      (st : AgentState) (ch : Challenge) (i : Nat) (w : Response),
      st.challenge = some ch →
      findWinnerScan uarg ch.responses = .ok (some (i, w)) →
      1 ≤ countTransfers (rewardAction s uarg ⟨env, tr⟩ st).2.1) := by
  refine ⟨getUserWalletAddress_ne_empty env u he, ?_, ?_⟩
  · intro hf
    unfold getUserWalletAddress
    rw [hf]
  · intro s uarg tr st ch i w hst hfind
    unfold rewardAction
    rw [hst]
    simp only [hfind]
    have hne : (getUserWalletAddress env w.username == "") = false :=
      beq_eq_false_iff_ne.mpr (getUserWalletAddress_ne_empty env w.username he)
    simp only [hne, Bool.false_eq_true, if_false]
    cases tr <;> simp [countTransfers]

/-- C10 witness: resolution on a healthy lookup response and on an
undecodable username, and a reward invocation reaching the transfer. -/
theorem c10_witness :
    getUserWalletAddress envApi0 "user_7" ≠ "" ∧
    getUserWalletAddress envApi0 "alice" = fallbackAddress ∧
    1 ≤ countTransfers
      (rewardAction s0 none ⟨envApi0, .returned "tx1"⟩ stWin).2.1 :=
  ⟨(c10_fallback envApi0 "user_7" rfl).1,
   (c10_fallback envApi0 "alice" rfl).2.1 rfl,
   (c10_fallback envApi0 "alice" rfl).2.2 s0 none (.returned "tx1") stWin
     chWin 0 rWin rfl rfl⟩

end Persuade
